import Mathlib

/-!
# regtools: `junctions annotate` record (`src/junctions/junctions_annotator.h`)

A shallow embedding of the `AnnotatedJunction` record, its constructors, `reset`,
`print_header`, `print`, `operator<` and the `JunctionsAnnotator` constructors, followed by
theorems about them. The member functions that the header only declares (`annotate_anchor`,
`overlap_ps`, `overlap_ns`, `check_for_overlap`, `annotate_junction_with_gtf`) are modelled
from the specification; each such definition says so in its doc comment.

Conventions of the embedding:

* `std::string` is `String`; `operator<` on strings is the lexicographic order on code units.
* `CHRPOS` / `uint32_t` coordinates are `Nat` values below `CHRPOS_MOD = 2 ^ 32`; every
  arithmetic operation of the source is followed by an explicit `% CHRPOS_MOD`.
* `std::set<T>` is `StdSet T`: its elements as a strictly ascending list, which is exactly the
  sequence a `begin() .. end()` iteration visits.
* An `ostream` is the `String` of everything written to it so far; `out << x` appends.
-/

namespace Regtools

/-! ## Base types that the header takes from other files -/

/-- Modelled from the spec: the coordinate type `CHRPOS` is declared in `bedFile.h`, which is
not part of the sources at hand. The spec calls coordinates "unsigned genomic coordinates"
and the `(string, uint32_t, uint32_t)` constructor stores `uint32_t` values into them
unconverted, so the type is taken to be unsigned 32-bit: arithmetic is modulo `2 ^ 32`. -/
def CHRPOS_MOD : Nat := 2 ^ 32

/-- Abstract state of a `std::set<T>`: the elements in strictly ascending order (hence
without duplicates), the order in which an iterator walks from `begin()` to `end()`. -/
structure StdSet (α : Type) [LT α] where
  /-- The elements, in iteration order. -/
  elems : List α
  /-- The container keeps them strictly ascending. -/
  sorted : elems.Pairwise (· < ·)

namespace StdSet

variable {α : Type} [LT α]

instance [DecidableEq α] : DecidableEq (StdSet α) := fun s t =>
  decidable_of_iff (s.elems = t.elems)
    ⟨fun h => by cases s; cases t; cases h; rfl, fun h => h ▸ rfl⟩

/-- A default-constructed `std::set`. -/
def empty : StdSet α := ⟨[], List.Pairwise.nil⟩

/-- Member `std::set::clear()`. -/
def clear (_s : StdSet α) : StdSet α := empty

/-- Member `std::set::size()`. -/
def size (s : StdSet α) : Nat := s.elems.length

end StdSet

/-- The ordered insertion behind `std::set::insert`, on the ascending element list: `x` goes
before the first element greater than it and is dropped when an element equivalent to it
(neither less than the other) is already there. -/
def StdSet.insertList {α : Type} [LinearOrder α] (x : α) : List α → List α
  | [] => [x]
  | y :: ys =>
    if x < y then x :: y :: ys
    else if y < x then y :: StdSet.insertList x ys
    else y :: ys

/-- Member `std::set::insert(x)`. -/
def StdSet.insert {α : Type} [LinearOrder α] (s : StdSet α) (x : α) : StdSet α :=
  ⟨StdSet.insertList x s.elems, by
    have key : ∀ l : List α, l.Pairwise (· < ·) →
        (StdSet.insertList x l).Pairwise (· < ·) ∧
        ∀ z ∈ StdSet.insertList x l, z = x ∨ z ∈ l := by
      intro l
      induction l with
      | nil =>
        intro _
        exact ⟨List.pairwise_singleton _ _, fun z hz => Or.inl (List.mem_singleton.1 hz)⟩
      | cons y ys ih =>
        intro hl
        have hy := (List.pairwise_cons.1 hl).1
        have hys := (List.pairwise_cons.1 hl).2
        unfold StdSet.insertList
        by_cases h1 : x < y
        · rw [if_pos h1]
          refine ⟨List.pairwise_cons.2 ⟨?_, hl⟩, fun z hz => ?_⟩
          · intro z hz
            rcases List.mem_cons.1 hz with rfl | hz
            · exact h1
            · exact lt_trans h1 (hy z hz)
          · rcases List.mem_cons.1 hz with rfl | hz
            · exact Or.inl rfl
            · exact Or.inr hz
        · rw [if_neg h1]
          by_cases h2 : y < x
          · rw [if_pos h2]
            refine ⟨List.pairwise_cons.2 ⟨?_, (ih hys).1⟩, fun z hz => ?_⟩
            · intro z hz
              rcases (ih hys).2 z hz with rfl | hz
              · exact h2
              · exact hy z hz
            · rcases List.mem_cons.1 hz with rfl | hz
              · exact Or.inr (List.mem_cons_self _ _)
              · rcases (ih hys).2 z hz with rfl | hz
                · exact Or.inl rfl
                · exact Or.inr (List.mem_cons_of_mem _ hz)
          · rw [if_neg h2]
            exact ⟨hl, fun z hz => Or.inr hz⟩
    exact (key s.elems s.sorted).1⟩

/-- Modelled from the spec: the Interval Record `BED` is declared in `bedFile.h`, which is
not part of the sources at hand. These are the members the header reads and writes:
chromosome, start, end (coordinates), name, score, strand and the optional extra fields. -/
structure BED where
  chrom : String
  start : Nat
  «end» : Nat
  name : String
  score : String
  strand : String
  fields : List String
deriving DecidableEq

/-- Modelled from the spec: `Junction` is declared in `junctions_extractor.h`, which is not
part of the sources at hand. It is an Interval Record (`BED`) carrying further members, of
which the header's comment names `thick_start` and `thick_end`; the constructor of
`AnnotatedJunction` reads only the `BED` part. -/
structure Junction extends BED where
  thick_start : Nat
  thick_end : Nat
deriving DecidableEq

/-! ## `struct AnnotatedJunction : BED` -/

/-- Format of an annotated junction (`struct AnnotatedJunction : BED`). -/
structure AnnotatedJunction extends BED where
  /-- set of transcripts that the junction overlaps -/
  transcripts_overlap : StdSet String
  /-- set of genes that the junction overlaps -/
  genes_overlap : StdSet String
  /-- set of exons that the junction overlaps -/
  exons_skipped : StdSet String
  /-- set of acceptor positions junction overlaps -/
  acceptors_skipped : StdSet Nat
  /-- set of donor positions junction overlaps -/
  donors_skipped : StdSet Nat
  /-- splice site annotation (D/DA/NA etc) -/
  anchor : String
  /-- five prime reference seq -/
  splice_site : String
  /-- Is this a known donor -/
  known_donor : Bool
  /-- Is this a known acceptor -/
  known_acceptor : Bool
  /-- Is this a known junction -/
  known_junction : Bool
  /-- Annotation - Exonic/Intronic etc. -/
  annotation : String
  /-- Variant related to the junction -/
  variant_info : String
deriving DecidableEq

namespace AnnotatedJunction

/-- Clear the contents of the junction (`void reset()`). -/
def reset (r : AnnotatedJunction) : AnnotatedJunction :=
  { r with
    anchor := "N"
    annotation := ""
    splice_site := ""
    known_donor := false
    known_acceptor := false
    known_junction := false
    exons_skipped := r.exons_skipped.clear
    acceptors_skipped := r.acceptors_skipped.clear
    donors_skipped := r.donors_skipped.clear
    transcripts_overlap := r.transcripts_overlap.clear
    genes_overlap := r.genes_overlap.clear }

/-- State of the object when a constructor body is entered: the `BED` base as its own
default constructor left it (`base`, a parameter because that constructor lives in
`bedFile.h`), the sets and strings default-constructed (empty) and the three flags holding
whatever was in memory (`g`). -/
def memberInit (base : BED) (g : Bool × Bool × Bool) : AnnotatedJunction :=
  { toBED := base
    transcripts_overlap := StdSet.empty
    genes_overlap := StdSet.empty
    exons_skipped := StdSet.empty
    acceptors_skipped := StdSet.empty
    donors_skipped := StdSet.empty
    anchor := ""
    splice_site := ""
    known_donor := g.1
    known_acceptor := g.2.1
    known_junction := g.2.2
    annotation := ""
    variant_info := "" }

/-- The constructor `AnnotatedJunction()`. -/
def new (base : BED) (g : Bool × Bool × Bool) : AnnotatedJunction :=
  reset (memberInit base g)

/-- The constructor `AnnotatedJunction(string chr1, uint32_t start1, uint32_t end1)`. -/
def ofCoords (base : BED) (g : Bool × Bool × Bool) (chr1 : String) (start1 end1 : Nat) :
    AnnotatedJunction :=
  let r := memberInit base g
  let r := { r with chrom := chr1 }
  let r := { r with start := start1 }
  let r := { r with «end» := end1 }
  reset r

/-- The constructor `AnnotatedJunction(const Junction &j1)`. -/
def ofJunction (base : BED) (g : Bool × Bool × Bool) (j1 : Junction) : AnnotatedJunction :=
  let r := memberInit base g
  let r := { r with chrom := j1.chrom }
  let r := { r with start := j1.start }
  let r := { r with «end» := (j1.«end» + 1) % CHRPOS_MOD }
  let r := { r with name := j1.name }
  let r := { r with score := j1.score }
  let r := { r with strand := j1.strand }
  let r := { r with fields := j1.fields }
  reset r

/-! ### Output -/

/-- The text `out << b` writes for a `bool` on a stream in its default state (no
`boolalpha`): `1` or `0`. -/
def putBool (b : Bool) : String := if b then "1" else "0"

/-- The text `out << n` writes for an unsigned integer (`CHRPOS`, `size_t`): decimal. -/
def putNat (n : Nat) : String := toString n

/-- Print the header line (`static void print_header(ostream&, bool)`). -/
def print_header (out : String) (variant_info_exists : Bool) : String :=
  let out := out ++ "chrom" ++ "\t" ++ "start" ++
    "\t" ++ "end" ++ "\t" ++ "name" ++
    "\t" ++ "score" ++ "\t" ++ "strand" ++
    "\t" ++ "splice_site" ++ "\t" ++ "acceptors_skipped" ++
    "\t" ++ "exons_skipped" ++ "\t" ++ "donors_skipped" ++
    "\t" ++ "anchor" ++
    "\t" ++ "known_donor" ++ "\t" ++ "known_acceptor" ++ "\t" ++ "known_junction" ++
    "\t" ++ "genes" ++ "\t" ++ "transcripts"
  let out := if variant_info_exists then out ++ "\t" ++ "variant_info" else out
  out ++ "\n"

/-- The loop `for (it = s.begin(); it != s.end(); ++it) { if (it != s.begin()) out << ",";
out << *it; }` of `print`; `atBegin` tells whether `it == s.begin()` and the list is what the
iterator has still to visit. -/
def printLoop (out : String) (atBegin : Bool) : List String → String
  | [] => out
  | x :: rest =>
    let out := if !atBegin then out ++ "," else out
    let out := out ++ x
    printLoop out false rest

/-- The `if (s.size()) { out << "\t"; for ... } else { out << "\t" << "NA"; }` block that
`print` runs once for `genes_overlap` and once for `transcripts_overlap`. -/
def printOverlap (out : String) (s : StdSet String) : String :=
  if s.size ≠ 0 then
    let out := out ++ "\t"
    printLoop out true s.elems
  else
    out ++ "\t" ++ "NA"

/-- Print out the junction (`void print(ostream&, bool)`). -/
def print (out : String) (r : AnnotatedJunction) (variant_info_exists : Bool) : String :=
  let out := out ++ r.chrom ++ "\t" ++ putNat r.start ++
    "\t" ++ putNat r.«end» ++ "\t" ++ r.name ++
    "\t" ++ r.score ++ "\t" ++ r.strand ++
    "\t" ++ r.splice_site ++ "\t" ++ putNat r.acceptors_skipped.size ++
    "\t" ++ putNat r.exons_skipped.size ++ "\t" ++ putNat r.donors_skipped.size ++
    "\t" ++ r.anchor ++
    "\t" ++ putBool r.known_donor ++ "\t" ++ putBool r.known_acceptor ++
    "\t" ++ putBool r.known_junction
  let out := printOverlap out r.genes_overlap
  let out := printOverlap out r.transcripts_overlap
  let out := if variant_info_exists then out ++ "\t" ++ r.variant_info else out
  out ++ "\n"

end AnnotatedJunction

/-- The comparison `operator<(const AnnotatedJunction& lhs, const AnnotatedJunction& rhs)`. -/
def operator_lt (lhs rhs : AnnotatedJunction) : Bool :=
  if lhs.chrom < rhs.chrom then true
  else if lhs.chrom = rhs.chrom ∧ lhs.start < rhs.start then true
  else if lhs.chrom = rhs.chrom ∧ lhs.start = rhs.start ∧ lhs.«end» < rhs.«end» then true
  else false

/-! ## `class JunctionsAnnotator` -/

/-- The data members of `class JunctionsAnnotator`. The types `BedFile`, `GtfParser` and
`ofstream` come from other files and are parameters. -/
structure JunctionsAnnotator (BedFile GtfParser Ofstream : Type) where
  /-- Junctions file to be annotated -/
  junctions_ : BedFile
  /-- Reference FASTA file -/
  ref_ : String
  /-- skip single exon genes -/
  skip_single_exon_genes_ : Bool
  /-- output stream to output file -/
  ofs_ : Ofstream
  /-- GTF file object -/
  gtf_ : GtfParser
  /-- File to write output to -/
  output_file_ : String

namespace JunctionsAnnotator

variable {BedFile GtfParser Ofstream : Type}

/-- The default constructor `JunctionsAnnotator()`; `bed0`, `ofs0`, `gtf0` are the
default-constructed values of the members it does not name. -/
def new (bed0 : BedFile) (ofs0 : Ofstream) (gtf0 : GtfParser) :
    JunctionsAnnotator BedFile GtfParser Ofstream :=
  { junctions_ := bed0
    ref_ := "NA"
    skip_single_exon_genes_ := true
    ofs_ := ofs0
    gtf_ := gtf0
    output_file_ := "NA" }

/-- The constructor `JunctionsAnnotator(string ref1, GtfParser gp1)`. -/
def ofRefGtf (bed0 : BedFile) (ofs0 : Ofstream) (ref1 : String) (gp1 : GtfParser) :
    JunctionsAnnotator BedFile GtfParser Ofstream :=
  { junctions_ := bed0
    ref_ := ref1
    skip_single_exon_genes_ := true
    ofs_ := ofs0
    gtf_ := gp1
    output_file_ := "NA" }

/-- The constructor `JunctionsAnnotator(string bedFile)`; `openBed` is the `BedFile(string)`
constructor. -/
def ofBedFile (openBed : String → BedFile) (ofs0 : Ofstream) (gtf0 : GtfParser)
    (bedFile : String) : JunctionsAnnotator BedFile GtfParser Ofstream :=
  { junctions_ := openBed bedFile
    ref_ := "NA"
    skip_single_exon_genes_ := true
    ofs_ := ofs0
    gtf_ := gtf0
    output_file_ := "NA" }

end JunctionsAnnotator

/-- Modelled from the spec: the body of `JunctionsAnnotator::annotate_anchor` is in
`junctions_annotator.cc`, which is not part of the sources at hand (the header only declares
it). This follows the rule table of the spec's section 4.2: `DA` when `known_donor` and
`known_acceptor` are both true, `D` when only `known_donor` is, `A` when only
`known_acceptor` is, and when both are false `NDA` if any transcript or gene overlap was
recorded, else `N`. -/
def annotate_anchor (junction : AnnotatedJunction) : AnnotatedJunction :=
  if junction.known_donor && junction.known_acceptor then
    { junction with anchor := "DA" }
  else if junction.known_donor then
    { junction with anchor := "D" }
  else if junction.known_acceptor then
    { junction with anchor := "A" }
  else if junction.transcripts_overlap.size ≠ 0 ∨ junction.genes_overlap.size ≠ 0 then
    { junction with anchor := "NDA" }
  else
    { junction with anchor := "N" }

/-! ## Exon matching (declared in the header, described in the spec's section 4.1) -/

/-- Modelled from the spec: a transcript as the gene model provider hands it to the engine
(section 6: `{id, geneId, strand, exons}`); the provider's types are in `gtf_parser.h`, which
is not part of the sources at hand. The exons are `BED` records in genomic order, as in the
header's `const vector<BED> & exons`, and an exon's `name` is its identifier. -/
structure Transcript where
  id : String
  geneId : String
  strand : String
  exons : List BED
deriving DecidableEq

/-- Modelled from the spec: the scan of section 4.1 step 3 for "the exon whose boundary
equals" a junction boundary, the body of which is in `junctions_annotator.cc` (not part of the
sources at hand). Walks the exons in order, `i` being the index of the head of the list, and
returns the index of the first exon that passes the test. -/
def findExon (p : BED → Bool) : List BED → Nat → Option Nat
  | [], _ => none
  | e :: rest, i => if p e then some i else findExon p rest (i + 1)

/-- Modelled from the spec: the collection of section 4.1 step 3, the body of which is in
`junctions_annotator.cc` (not part of the sources at hand): "collect every exon strictly
between donor and acceptor exon (inclusive boundaries excluded) into `exons_skipped`; also
collect every internal exon boundary position encountered into `donors_skipped` /
`acceptors_skipped` respectively". Walks the exons in order, `i` being the index of the head
of the list, and handles those whose index lies strictly between `lo` and `hi`. -/
def collectSkipped (donorSide acceptorSide : BED → Nat) (lo hi : Nat) :
    List BED → Nat → AnnotatedJunction → AnnotatedJunction
  | [], _, j => j
  | e :: rest, i, j =>
    let j :=
      if lo < i ∧ i < hi then
        { j with
          exons_skipped := j.exons_skipped.insert e.name
          donors_skipped := j.donors_skipped.insert (donorSide e)
          acceptors_skipped := j.acceptors_skipped.insert (acceptorSide e) }
      else j
    collectSkipped donorSide acceptorSide lo hi rest (i + 1) j

/-- Modelled from the spec: section 4.1 step 4, "the junction interval overlaps the
transcript's genomic span at all" (the test itself is in `junctions_annotator.cc`, not part
of the sources at hand). The span runs from the start of the first exon to the end of the
last one; both intervals are half-open. -/
def spanOverlaps (exons : List BED) (j1 : AnnotatedJunction) : Bool :=
  match exons.head?, exons.getLast? with
  | some first, some last => decide (first.start < j1.«end») && decide (j1.start < last.«end»)
  | _, _ => false

/-- Modelled from the spec: `JunctionsAnnotator::overlap_ps`, declared in the header as
`bool overlap_ps(const vector<BED> & exons, AnnotatedJunction & j1)` with its body in
`junctions_annotator.cc`, which is not part of the sources at hand. Section 4.1, steps 2 and
3, for a positive-strand transcript: the junction's start is tested against exon ends (donor
sites) and its end against exon starts (acceptor sites); a donor match sets `known_donor`,
an acceptor match sets `known_acceptor`; when both are found and the acceptor exon comes
after the donor exon, `known_junction` is set and the exons strictly between the two are
collected. The result says whether the transcript is to be recorded in the overlap sets: on
a donor or acceptor match (step 3 and section 8) or on any overlap with the transcript's
span (step 4). -/
def overlap_ps (exons : List BED) (j1 : AnnotatedJunction) : Bool × AnnotatedJunction :=
  let donor := findExon (fun e => e.«end» == j1.start) exons 0
  let acceptor := findExon (fun e => e.start == j1.«end») exons 0
  let r := if donor.isSome then { j1 with known_donor := true } else j1
  let r := if acceptor.isSome then { r with known_acceptor := true } else r
  let r :=
    match donor, acceptor with
    | some d, some a =>
      if d < a then
        collectSkipped (fun e => e.«end») (fun e => e.start) d a exons 0
          { r with known_junction := true }
      else r
    | _, _ => r
  (donor.isSome || acceptor.isSome || spanOverlaps exons j1, r)

/-- Modelled from the spec: `JunctionsAnnotator::overlap_ns`, declared in the header as
`bool overlap_ns(const vector<BED> & exons, AnnotatedJunction & j1)` with its body in
`junctions_annotator.cc`, which is not part of the sources at hand. The mirror image of
`overlap_ps` for a negative-strand transcript (section 4.1 step 2): "the donor/acceptor
roles swap (exon starts are donors, exon ends are acceptors)", so an exon end equal to the
junction's start is an acceptor match, an exon start equal to the junction's end is a donor
match, and in genomic order the acceptor exon comes before the donor exon. -/
def overlap_ns (exons : List BED) (j1 : AnnotatedJunction) : Bool × AnnotatedJunction :=
  let donor := findExon (fun e => e.start == j1.«end») exons 0
  let acceptor := findExon (fun e => e.«end» == j1.start) exons 0
  let r := if donor.isSome then { j1 with known_donor := true } else j1
  let r := if acceptor.isSome then { r with known_acceptor := true } else r
  let r :=
    match donor, acceptor with
    | some d, some a =>
      if a < d then
        collectSkipped (fun e => e.start) (fun e => e.«end») a d exons 0
          { r with known_junction := true }
      else r
    | _, _ => r
  (donor.isSome || acceptor.isSome || spanOverlaps exons j1, r)

/-- Modelled from the spec: `JunctionsAnnotator::check_for_overlap`, declared in the header
as `void check_for_overlap(string transcript_id, AnnotatedJunction & junction)` with its body
in `junctions_annotator.cc`, which is not part of the sources at hand; the transcript that
the annotator's GTF parser returns for `transcript_id` is the argument `t`. Section 4.1:
step 1 skips a single-exon transcript when `skip_single_exon_genes_` is set, step 2
dispatches on the transcript's strand, and a transcript that matched or overlaps is recorded
in `transcripts_overlap` and `genes_overlap`. -/
def check_for_overlap (skip_single_exon_genes_ : Bool) (t : Transcript)
    (junction : AnnotatedJunction) : AnnotatedJunction :=
  if skip_single_exon_genes_ ∧ t.exons.length = 1 then junction
  else
    let res :=
      if t.strand = "+" then overlap_ps t.exons junction
      else if t.strand = "-" then overlap_ns t.exons junction
      else (false, junction)
    if res.1 then
      { res.2 with
        transcripts_overlap := res.2.transcripts_overlap.insert t.id
        genes_overlap := res.2.genes_overlap.insert t.geneId }
    else res.2

/-- Modelled from the spec: `JunctionsAnnotator::annotate_junction_with_gtf`, declared in the
header as `void annotate_junction_with_gtf(AnnotatedJunction & j1)` with its body in
`junctions_annotator.cc`, which is not part of the sources at hand; `transcripts` is what the
gene model provider returns for the junction's region. Section 2: the engine "runs
strand-aware exon matching per overlapping transcript, aggregates results into an Annotated
Junction Record, computes the anchor classification". -/
def annotate_junction_with_gtf (skip_single_exon_genes_ : Bool) (transcripts : List Transcript)
    (j1 : AnnotatedJunction) : AnnotatedJunction :=
  annotate_anchor
    (transcripts.foldl (fun r t => check_for_overlap skip_single_exon_genes_ t r) j1)

/-! ## Vocabulary of the specification -/

/-- A fresh record in the words of the data model: all sets empty, all booleans false,
`anchor = "N"`, and `splice_site` and `annotation` empty. -/
def Fresh (r : AnnotatedJunction) : Prop :=
  r.transcripts_overlap.elems = [] ∧ r.genes_overlap.elems = [] ∧
  r.exons_skipped.elems = [] ∧ r.acceptors_skipped.elems = [] ∧
  r.donors_skipped.elems = [] ∧
  r.known_donor = false ∧ r.known_acceptor = false ∧ r.known_junction = false ∧
  r.anchor = "N" ∧ r.splice_site = "" ∧ r.annotation = ""

instance (r : AnnotatedJunction) : Decidable (Fresh r) := by
  unfold Fresh; infer_instance

/-- The sort key `(chrom, start, end)` of a record, in the lexicographic order of triples. -/
def sortKey (r : AnnotatedJunction) : String ×ₗ Nat ×ₗ Nat :=
  toLex (r.chrom, toLex (r.start, r.«end»))

/-- Two records have equal chrom, equal start and equal end. -/
def KeyEq (a b : AnnotatedJunction) : Prop :=
  a.chrom = b.chrom ∧ a.start = b.start ∧ a.«end» = b.«end»

instance (a b : AnnotatedJunction) : Decidable (KeyEq a b) := by
  unfold KeyEq; infer_instance

/-- The text of one overlap column in the words of the row format: `NA` for an empty set,
otherwise the identifiers joined by `,` in iteration order. -/
def overlapColumn (s : StdSet String) : String :=
  if s.elems = [] then "NA" else ",".intercalate s.elems

/-- The values of a data row, one per column, in output order; the last one is present only
when `variant_info_exists` is set. -/
def rowCells (r : AnnotatedJunction) (variant_info_exists : Bool) : List String :=
  [r.chrom, AnnotatedJunction.putNat r.start, AnnotatedJunction.putNat r.«end», r.name,
   r.score, r.strand, r.splice_site,
   AnnotatedJunction.putNat r.acceptors_skipped.size,
   AnnotatedJunction.putNat r.exons_skipped.size,
   AnnotatedJunction.putNat r.donors_skipped.size,
   r.anchor,
   AnnotatedJunction.putBool r.known_donor, AnnotatedJunction.putBool r.known_acceptor,
   AnnotatedJunction.putBool r.known_junction,
   overlapColumn r.genes_overlap, overlapColumn r.transcripts_overlap] ++
  (if variant_info_exists then [r.variant_info] else [])

/-- The column names of the row format, in order; `variant_info` is present only when
`variant_info_exists` is set. -/
def headerNames (variant_info_exists : Bool) : List String :=
  ["chrom", "start", "end", "name", "score", "strand", "splice_site", "acceptors_skipped",
   "exons_skipped", "donors_skipped", "anchor", "known_donor", "known_acceptor",
   "known_junction", "genes", "transcripts"] ++
  (if variant_info_exists then ["variant_info"] else [])

/-- The value the row format puts in the column of a given name. -/
def columnValue (r : AnnotatedJunction) (column : String) : String :=
  if column = "chrom" then r.chrom
  else if column = "start" then AnnotatedJunction.putNat r.start
  else if column = "end" then AnnotatedJunction.putNat r.«end»
  else if column = "name" then r.name
  else if column = "score" then r.score
  else if column = "strand" then r.strand
  else if column = "splice_site" then r.splice_site
  else if column = "acceptors_skipped" then AnnotatedJunction.putNat r.acceptors_skipped.size
  else if column = "exons_skipped" then AnnotatedJunction.putNat r.exons_skipped.size
  else if column = "donors_skipped" then AnnotatedJunction.putNat r.donors_skipped.size
  else if column = "anchor" then r.anchor
  else if column = "known_donor" then AnnotatedJunction.putBool r.known_donor
  else if column = "known_acceptor" then AnnotatedJunction.putBool r.known_acceptor
  else if column = "known_junction" then AnnotatedJunction.putBool r.known_junction
  else if column = "genes" then overlapColumn r.genes_overlap
  else if column = "transcripts" then overlapColumn r.transcripts_overlap
  else if column = "variant_info" then r.variant_info
  else ""

/-- The tab-separated columns of a newline-terminated line: the line without its last
character, split at every tab. -/
def columns (line : String) : List String :=
  (line.data.dropLast.splitOn '\t').map String.mk

/-- No tab character occurs in a string. -/
def TabFree (s : String) : Prop := '\t' ∉ s.data

instance (s : String) : Decidable (TabFree s) := by
  unfold TabFree; infer_instance

/-- None of the strings that `print` copies into the row contains a tab: chrom, name, score,
strand, splice_site, anchor, every gene and transcript identifier and, when the column is
written, variant_info. -/
def TabFreeRecord (r : AnnotatedJunction) (variant_info_exists : Bool) : Prop :=
  TabFree r.chrom ∧ TabFree r.name ∧ TabFree r.score ∧ TabFree r.strand ∧
  TabFree r.splice_site ∧ TabFree r.anchor ∧
  (∀ g ∈ r.genes_overlap.elems, TabFree g) ∧
  (∀ t ∈ r.transcripts_overlap.elems, TabFree t) ∧
  (variant_info_exists = true → TabFree r.variant_info)

instance (r : AnnotatedJunction) (b : Bool) : Decidable (TabFreeRecord r b) := by
  unfold TabFreeRecord; infer_instance

/-- The invariant of the known-flags: a known junction has a known donor and a known
acceptor. -/
def SitesKnown (r : AnnotatedJunction) : Prop :=
  r.known_junction = true → r.known_donor = true ∧ r.known_acceptor = true

instance (r : AnnotatedJunction) : Decidable (SitesKnown r) := by
  unfold SitesKnown; infer_instance

/-- The key `(chrom, start, end)` of an input junction, in the lexicographic order of
triples. -/
def junctionKey (j : Junction) : String ×ₗ Nat ×ₗ Nat :=
  toLex (j.chrom, toLex (j.start, j.«end»))

/-- The pieces of a string split at every comma. -/
def splitAtCommas (s : String) : List String :=
  (s.data.splitOn ',').map String.mk

/-- No comma occurs in a string. -/
def CommaFree (s : String) : Prop := ',' ∉ s.data

instance (s : String) : Decidable (CommaFree s) := by
  unfold CommaFree; infer_instance

/-- Two records agree on everything that `reset` leaves alone: chrom, start, end, name,
score, strand, fields and variant_info. -/
def SameInterval (a b : AnnotatedJunction) : Prop :=
  a.chrom = b.chrom ∧ a.start = b.start ∧ a.«end» = b.«end» ∧ a.name = b.name ∧
  a.score = b.score ∧ a.strand = b.strand ∧ a.fields = b.fields ∧
  a.variant_info = b.variant_info

instance (a b : AnnotatedJunction) : Decidable (SameInterval a b) := by
  unfold SameInterval; infer_instance

/-! ## Sample values used to instantiate the theorems -/

/-- A default-constructed `BED` base: empty strings and zero coordinates. -/
def sampleBase : BED := ⟨"", 0, 0, "", "", "", []⟩

/-- A junction as the junction source produces it. -/
def sampleJunction : Junction :=
  ⟨⟨"chr1", 200, 349, "JUNC00000001", "12", "+", ["x"]⟩, 190, 360⟩

/-- Two gene identifiers, ascending. -/
def sampleGenes : StdSet String :=
  ⟨["BRCA1", "TP53"], by simp [String.lt_iff_toList_lt]; decide⟩

/-- An annotated record: `sampleJunction` after matching against a gene model. -/
def sampleRecord : AnnotatedJunction :=
  { AnnotatedJunction.ofJunction sampleBase (false, false, false) sampleJunction with
    genes_overlap := sampleGenes
    known_donor := true
    anchor := "D"
    variant_info := "chr1:210,A>G" }

/-- Two records on the same chromosome that differ in start. -/
def sampleEarlier : AnnotatedJunction :=
  AnnotatedJunction.ofCoords sampleBase (false, false, false) "chr1" 100 300

/-- The second of the two records, starting later and ending earlier. -/
def sampleLater : AnnotatedJunction :=
  AnnotatedJunction.ofCoords sampleBase (false, false, false) "chr1" 200 250

/-- A junction whose name contains a tab character. -/
def tabbedJunction : Junction :=
  ⟨⟨"chr1", 200, 349, "JUNC\t1", "12", "+", []⟩, 190, 360⟩

/-- The exons `[100,200)`, `[250,300)`, `[350,400)` of the exon-skip scenario. -/
def skipExons : List BED :=
  [⟨"chr1", 100, 200, "exon1", "0", "+", []⟩,
   ⟨"chr1", 250, 300, "exon2", "0", "+", []⟩,
   ⟨"chr1", 350, 400, "exon3", "0", "+", []⟩]

/-- The positive-strand transcript of the exon-skip scenario. -/
def skipTranscript : Transcript := ⟨"T1", "G1", "+", skipExons⟩

/-- The junction `[200,350)` on the `+` strand of the exon-skip scenario, as a fresh
record. -/
def skipJunction : AnnotatedJunction :=
  { AnnotatedJunction.ofCoords sampleBase (false, false, false) "chr1" 200 350 with
    strand := "+" }

/-- The input junction whose record is `skipJunction`'s interval: `end + 1 = 350`. -/
def skipRawJunction : Junction :=
  ⟨⟨"chr1", 200, 349, "JUNC00000002", "5", "+", []⟩, 190, 360⟩

/-- A junction whose end is the largest value of the coordinate type. -/
def wrapJunction : Junction :=
  ⟨⟨"chr1", 100, 4294967295, "JUNC00000003", "1", "+", []⟩, 100, 4294967295⟩

/-- A junction with the chrom and start of `wrapJunction` and a small end. -/
def lowJunction : Junction :=
  ⟨⟨"chr1", 100, 105, "JUNC00000004", "1", "+", []⟩, 100, 105⟩

/-- A third record on the same chromosome, after `sampleLater`. -/
def sampleLast : AnnotatedJunction :=
  AnnotatedJunction.ofCoords sampleBase (false, false, false) "chr1" 200 400

/-- The interval of `sampleRecord` with a different annotation state. -/
def sampleRecordOther : AnnotatedJunction :=
  { sampleRecord with
    genes_overlap := StdSet.empty
    known_acceptor := true
    anchor := "DA"
    splice_site := "GT-AG" }

/-- A junction whose chromosome name contains a tab character. -/
def tabbedChromJunction : Junction :=
  ⟨⟨"chr1\tx", 200, 349, "JUNC00000005", "12", "+", []⟩, 190, 360⟩

/-! ## Theorems -/

/-! ### Construction and `reset` -/

theorem reset_fresh (r : AnnotatedJunction) : Fresh r.reset := by
  simp [Fresh, AnnotatedJunction.reset, StdSet.clear, StdSet.empty]

/-- C1: every way of constructing an `AnnotatedJunction` (the default constructor, the
`(chrom, start, end)` constructor and the constructor from a `Junction`, for every argument
and whatever the base sub-object and the uninitialised flags held) gives a record whose five
sets are empty, whose three flags are false, whose anchor is `"N"` and whose `splice_site`
and `annotation` are empty. -/
theorem constructors_fresh (base : BED) (g : Bool × Bool × Bool) (chr1 : String)
    (start1 end1 : Nat) (j1 : Junction) :
    Fresh (AnnotatedJunction.new base g) ∧
    Fresh (AnnotatedJunction.ofCoords base g chr1 start1 end1) ∧
    Fresh (AnnotatedJunction.ofJunction base g j1) :=
  ⟨reset_fresh _, reset_fresh _, reset_fresh _⟩

/-- C2, as stated, fails: for the junction `chr1:[100, 4294967295)` the constructed record
has `end = 0`, not `j.end + 1 = 4294967296`; the interval `[100, 4294967295)` becomes
`[100, 0)`. -/
theorem ofJunction_end_not_successor :
    (AnnotatedJunction.ofJunction sampleBase (false, false, false) wrapJunction).start = 100 ∧
    (AnnotatedJunction.ofJunction sampleBase (false, false, false) wrapJunction).«end» = 0 ∧
    wrapJunction.«end» + 1 = 4294967296 ∧
    (AnnotatedJunction.ofJunction sampleBase (false, false, false) wrapJunction).«end» ≠
      wrapJunction.«end» + 1 := by
  decide

/-- C2, amended: for every `Junction` `j1` the constructed record has `chrom`, `start`,
`name`, `score`, `strand` and `fields` copied unchanged from `j1` and
`end = (j1.end + 1) mod 2 ^ 32`; whenever `j1.end` is below the largest value of the
coordinate type (`j1.end + 1 < 2 ^ 32`) this is `end = j1.end + 1`, that is, `[start, end)`
becomes `[start, end + 1)` and nothing else of the interval is altered. -/
theorem ofJunction_interval (base : BED) (g : Bool × Bool × Bool) (j1 : Junction) :
    (AnnotatedJunction.ofJunction base g j1).chrom = j1.chrom ∧
    (AnnotatedJunction.ofJunction base g j1).start = j1.start ∧
    (AnnotatedJunction.ofJunction base g j1).«end» = (j1.«end» + 1) % CHRPOS_MOD ∧
    (j1.«end» + 1 < CHRPOS_MOD →
      (AnnotatedJunction.ofJunction base g j1).«end» = j1.«end» + 1) ∧
    (AnnotatedJunction.ofJunction base g j1).name = j1.name ∧
    (AnnotatedJunction.ofJunction base g j1).score = j1.score ∧
    (AnnotatedJunction.ofJunction base g j1).strand = j1.strand ∧
    (AnnotatedJunction.ofJunction base g j1).fields = j1.fields := by
  refine ⟨rfl, rfl, rfl, fun h => ?_, rfl, rfl, rfl, rfl⟩
  show (j1.«end» + 1) % CHRPOS_MOD = j1.«end» + 1
  exact Nat.mod_eq_of_lt h

theorem ofJunction_interval_witness :
    sampleJunction.«end» + 1 < CHRPOS_MOD ∧
    (AnnotatedJunction.ofJunction sampleBase (true, false, true) sampleJunction).«end» =
      sampleJunction.«end» + 1 :=
  ⟨by decide,
   (ofJunction_interval sampleBase (true, false, true) sampleJunction).2.2.2.1 (by decide)⟩

/-! ### `operator<` -/

theorem operator_lt_iff (a b : AnnotatedJunction) :
    operator_lt a b = true ↔
      a.chrom < b.chrom ∨ (a.chrom = b.chrom ∧ a.start < b.start) ∨
        (a.chrom = b.chrom ∧ a.start = b.start ∧ a.«end» < b.«end») := by
  unfold operator_lt
  split_ifs with h1 h2 h3 <;> simp_all

theorem operator_lt_iff_sortKey (a b : AnnotatedJunction) :
    operator_lt a b = true ↔ sortKey a < sortKey b := by
  rw [operator_lt_iff, sortKey, sortKey, Prod.Lex.lt_iff]
  simp only [ofLex_toLex, Prod.Lex.lt_iff]
  tauto

theorem sortKey_eq_iff (a b : AnnotatedJunction) : sortKey a = sortKey b ↔ KeyEq a b := by
  simp [sortKey, KeyEq, Prod.ext_iff]

theorem operator_lt_eq_false_iff (a b : AnnotatedJunction) :
    operator_lt a b = false ↔ ¬ sortKey a < sortKey b := by
  rw [← operator_lt_iff_sortKey]; simp

/-- C3: `operator<` is the lexicographic order of the key `(chrom, start, end)`; for every
two records exactly one of `a < b`, `b < a`, "equal chrom, start and end" holds; and when
chrom or start differ the outcome does not depend on the two `end` values. -/
theorem operator_lt_total_order (a b : AnnotatedJunction) :
    (operator_lt a b = true ↔ sortKey a < sortKey b) ∧
    ((operator_lt a b = true ∧ operator_lt b a = false ∧ ¬ KeyEq a b) ∨
     (operator_lt a b = false ∧ operator_lt b a = true ∧ ¬ KeyEq a b) ∨
     (operator_lt a b = false ∧ operator_lt b a = false ∧ KeyEq a b)) ∧
    (¬ (a.chrom = b.chrom ∧ a.start = b.start) →
      ∀ e₁ e₂ : Nat,
        operator_lt { a with «end» := e₁ } { b with «end» := e₂ } = operator_lt a b) := by
  refine ⟨operator_lt_iff_sortKey a b, ?_, ?_⟩
  · rcases lt_trichotomy (sortKey a) (sortKey b) with h | h | h
    · refine Or.inl ⟨(operator_lt_iff_sortKey a b).2 h, ?_, ?_⟩
      · exact (operator_lt_eq_false_iff b a).2 (lt_asymm h)
      · rw [← sortKey_eq_iff]; exact ne_of_lt h
    · refine Or.inr (Or.inr ⟨?_, ?_, (sortKey_eq_iff a b).1 h⟩)
      · exact (operator_lt_eq_false_iff a b).2 (h ▸ lt_irrefl _)
      · exact (operator_lt_eq_false_iff b a).2 (h ▸ lt_irrefl _)
    · refine Or.inr (Or.inl ⟨?_, (operator_lt_iff_sortKey b a).2 h, ?_⟩)
      · exact (operator_lt_eq_false_iff a b).2 (lt_asymm h)
      · rw [← sortKey_eq_iff]; exact ne_of_gt h
  · intro hne e₁ e₂
    rw [Bool.eq_iff_iff, operator_lt_iff, operator_lt_iff]
    constructor
    · rintro (h | h | h)
      · exact Or.inl h
      · exact Or.inr (Or.inl h)
      · exact absurd ⟨h.1, h.2.1⟩ hne
    · rintro (h | h | h)
      · exact Or.inl h
      · exact Or.inr (Or.inl h)
      · exact absurd ⟨h.1, h.2.1⟩ hne

theorem operator_lt_total_order_witness :
    ¬ (sampleEarlier.chrom = sampleLater.chrom ∧ sampleEarlier.start = sampleLater.start) ∧
    operator_lt { sampleEarlier with «end» := 900 } { sampleLater with «end» := 7 } =
      operator_lt sampleEarlier sampleLater :=
  ⟨by decide, (operator_lt_total_order sampleEarlier sampleLater).2.2 (by decide) 900 7⟩

/-! ### `print_header` and `print` -/

theorem intercalate_go_append (p acc sep : String) (l : List String) :
    String.intercalate.go (p ++ acc) sep l = p ++ String.intercalate.go acc sep l := by
  induction l generalizing acc with
  | nil => simp [String.intercalate.go]
  | cons x rest ih =>
    simp only [String.intercalate.go]
    rw [String.append_assoc, String.append_assoc, ← String.append_assoc acc, ih]

theorem printLoop_false (out : String) (l : List String) :
    AnnotatedJunction.printLoop out false l = String.intercalate.go out "," l := by
  induction l generalizing out with
  | nil => simp [AnnotatedJunction.printLoop, String.intercalate.go]
  | cons x rest ih =>
    simp only [AnnotatedJunction.printLoop, String.intercalate.go, Bool.not_false, if_true]
    exact ih _

theorem printLoop_true (out : String) (x : String) (rest : List String) :
    AnnotatedJunction.printLoop out true (x :: rest) = out ++ ",".intercalate (x :: rest) := by
  simp only [AnnotatedJunction.printLoop, Bool.not_true, String.intercalate]
  rw [if_neg (by simp), printLoop_false, intercalate_go_append]

theorem printOverlap_eq (out : String) (s : StdSet String) :
    AnnotatedJunction.printOverlap out s = out ++ "\t" ++ overlapColumn s := by
  unfold AnnotatedJunction.printOverlap overlapColumn StdSet.size
  cases h : s.elems with
  | nil => simp
  | cons x rest =>
    simp only [List.length_cons, ne_eq, Nat.add_one_ne_zero, not_false_eq_true, if_true]
    rw [printLoop_true, if_neg (by simp), String.append_assoc]

theorem intercalate_cons_cons (sep x y : String) (l : List String) :
    sep.intercalate (x :: y :: l) = x ++ sep ++ sep.intercalate (y :: l) := by
  simp only [String.intercalate, String.intercalate.go]
  rw [String.append_assoc x, intercalate_go_append, intercalate_go_append,
    String.append_assoc]

theorem intercalate_singleton (sep x : String) : sep.intercalate [x] = x := by
  simp [String.intercalate, String.intercalate.go]

theorem print_header_eq (out : String) (b : Bool) :
    AnnotatedJunction.print_header out b =
      out ++ "\t".intercalate (headerNames b) ++ "\n" := by
  cases b <;>
    simp only [AnnotatedJunction.print_header, headerNames, if_true, if_false,
      Bool.false_eq_true, List.append_nil, List.cons_append, List.nil_append,
      intercalate_cons_cons, intercalate_singleton, String.append_assoc]

theorem print_eq (out : String) (r : AnnotatedJunction) (b : Bool) :
    AnnotatedJunction.print out r b = out ++ "\t".intercalate (rowCells r b) ++ "\n" := by
  cases b <;>
    simp only [AnnotatedJunction.print, rowCells, printOverlap_eq, if_true, if_false,
      Bool.false_eq_true, List.append_nil, List.cons_append, List.nil_append,
      intercalate_cons_cons, intercalate_singleton, String.append_assoc]

/-- C4: with `variant_info_exists = false`, `print` appends to the stream exactly the sixteen
values chrom, start, end, name, score, strand, splice_site, the sizes of
`acceptors_skipped`, `exons_skipped` and `donors_skipped`, anchor, the three flags as `1` or
`0`, the genes list and the transcripts list, in this order, separated by single tabs and
terminated by a newline. -/
theorem print_row_format (out : String) (r : AnnotatedJunction) :
    AnnotatedJunction.print out r false =
      out ++ "\t".intercalate
        [r.chrom, toString r.start, toString r.«end», r.name, r.score, r.strand,
         r.splice_site,
         toString r.acceptors_skipped.elems.length,
         toString r.exons_skipped.elems.length,
         toString r.donors_skipped.elems.length,
         r.anchor,
         (if r.known_donor then "1" else "0"),
         (if r.known_acceptor then "1" else "0"),
         (if r.known_junction then "1" else "0"),
         overlapColumn r.genes_overlap,
         overlapColumn r.transcripts_overlap] ++ "\n" := by
  simpa [rowCells, AnnotatedJunction.putNat, AnnotatedJunction.putBool, StdSet.size]
    using print_eq out r false

theorem columnValue_headerNames (r : AnnotatedJunction) (b : Bool) :
    (headerNames b).map (columnValue r) = rowCells r b := by
  cases b <;> simp [headerNames, rowCells, columnValue]

theorem columns_print_header (b : Bool) :
    columns (AnnotatedJunction.print_header "" b) = headerNames b := by
  cases b <;> rfl

/-- C5: `print_header` appends one newline-terminated line whose tab-separated column names
are chrom, start, end, name, score, strand, splice_site, acceptors_skipped, exons_skipped,
donors_skipped, anchor, known_donor, known_acceptor, known_junction, genes, transcripts,
followed by variant_info exactly when `variant_info_exists` is true; and the data row that
`print` writes with the same flag is, column by column and in the same order, the value of
the record for the column the header names. -/
theorem print_header_format (out : String) (b : Bool) :
    AnnotatedJunction.print_header out b =
      out ++ "\t".intercalate
        (["chrom", "start", "end", "name", "score", "strand", "splice_site",
          "acceptors_skipped", "exons_skipped", "donors_skipped", "anchor", "known_donor",
          "known_acceptor", "known_junction", "genes", "transcripts"] ++
         (if b then ["variant_info"] else [])) ++ "\n" ∧
    columns (AnnotatedJunction.print_header "" b) =
      ["chrom", "start", "end", "name", "score", "strand", "splice_site",
       "acceptors_skipped", "exons_skipped", "donors_skipped", "anchor", "known_donor",
       "known_acceptor", "known_junction", "genes", "transcripts"] ++
      (if b then ["variant_info"] else []) ∧
    ∀ r : AnnotatedJunction,
      AnnotatedJunction.print out r b =
        out ++ "\t".intercalate
          ((columns (AnnotatedJunction.print_header "" b)).map (columnValue r)) ++ "\n" := by
  refine ⟨print_header_eq out b, columns_print_header b, fun r => ?_⟩
  rw [columns_print_header, columnValue_headerNames, print_eq]

/-! ### Column counts -/

theorem data_intercalate (sep : String) (l : List String) :
    (sep.intercalate l).data = List.intercalate sep.data (l.map String.data) := by
  induction l with
  | nil => rfl
  | cons x rest ih =>
    cases rest with
    | nil => simp [intercalate_singleton, List.intercalate]
    | cons y rest =>
      rw [intercalate_cons_cons, String.data_append, String.data_append, ih]
      simp [List.intercalate, List.intersperse]

theorem columns_intercalate (cells : List String) (hne : cells ≠ [])
    (hfree : ∀ c ∈ cells, TabFree c) :
    columns ("\t".intercalate cells ++ "\n") = cells := by
  have hdata : ("\t".intercalate cells ++ "\n").data =
      List.intercalate ['\t'] (cells.map String.data) ++ ['\n'] := by
    rw [String.data_append, data_intercalate]
  unfold columns
  rw [hdata, List.dropLast_concat, List.splitOn_intercalate]
  · rw [List.map_map]
    conv_rhs => rw [← List.map_id cells]
    apply List.map_congr_left
    intro c _
    rfl
  · intro l hl
    obtain ⟨c, hc, rfl⟩ := List.mem_map.1 hl
    exact hfree c hc
  · simpa using hne

theorem tabFree_append {a b : String} (ha : TabFree a) (hb : TabFree b) :
    TabFree (a ++ b) := by
  unfold TabFree at *
  rw [String.data_append, List.mem_append]
  exact fun h => h.elim ha hb

theorem tabFree_intercalate (sep : String) (hsep : TabFree sep) (l : List String)
    (hl : ∀ x ∈ l, TabFree x) : TabFree (sep.intercalate l) := by
  induction l with
  | nil => unfold TabFree; simp [String.intercalate]
  | cons x rest ih =>
    cases rest with
    | nil => rw [intercalate_singleton]; exact hl x (List.mem_cons_self _ _)
    | cons y rest =>
      rw [intercalate_cons_cons]
      exact tabFree_append (tabFree_append (hl x (List.mem_cons_self _ _)) hsep)
        (ih fun z hz => hl z (List.mem_cons_of_mem _ hz))

theorem digitChar_ne_tab (n : Nat) (h : n < 10) : Nat.digitChar n ≠ '\t' := by
  interval_cases n <;> decide

theorem toDigitsCore_ne_tab (fuel n : Nat) (ds : List Char) (hds : '\t' ∉ ds) :
    '\t' ∉ Nat.toDigitsCore 10 fuel n ds := by
  induction fuel generalizing n ds with
  | zero => simpa [Nat.toDigitsCore] using hds
  | succ fuel ih =>
    have hcons : '\t' ∉ Nat.digitChar (n % 10) :: ds := by
      rw [List.mem_cons, not_or]
      exact ⟨fun h => digitChar_ne_tab _ (Nat.mod_lt _ (by decide)) h.symm, hds⟩
    simp only [Nat.toDigitsCore]
    split_ifs
    · exact hcons
    · exact ih _ _ hcons

theorem tabFree_putNat (n : Nat) : TabFree (AnnotatedJunction.putNat n) := by
  show '\t' ∉ (Nat.toDigitsCore 10 (n + 1) n []).asString.data
  exact toDigitsCore_ne_tab _ _ _ (List.not_mem_nil _)

theorem tabFree_putBool (b : Bool) : TabFree (AnnotatedJunction.putBool b) := by
  cases b <;> decide

theorem tabFree_overlapColumn (s : StdSet String) (hs : ∀ x ∈ s.elems, TabFree x) :
    TabFree (overlapColumn s) := by
  unfold overlapColumn
  split_ifs
  · decide
  · exact tabFree_intercalate "," (by decide) _ hs

theorem tabFree_rowCells (r : AnnotatedJunction) (b : Bool) (h : TabFreeRecord r b) :
    ∀ c ∈ rowCells r b, TabFree c := by
  obtain ⟨h1, h2, h3, h4, h5, h6, h7, h8, h9⟩ := h
  have hg := tabFree_overlapColumn _ h7
  have ht := tabFree_overlapColumn _ h8
  intro c hc
  cases b <;>
    simp only [rowCells, if_true, if_false, Bool.false_eq_true, List.append_nil,
      List.cons_append, List.nil_append, List.mem_cons, List.mem_singleton,
      List.not_mem_nil, or_false] at hc <;>
    rcases hc with rfl | rfl | rfl | rfl | rfl | rfl | rfl | rfl | rfl | rfl | rfl | rfl |
      rfl | rfl | rfl | hc <;>
    first
      | assumption
      | exact tabFree_putNat _
      | exact tabFree_putBool _
      | skip
  · subst hc; exact ht
  · rcases hc with rfl | rfl
    · exact ht
    · exact h9 rfl

theorem rowCells_length (r : AnnotatedJunction) (b : Bool) :
    (rowCells r b).length = if b then 17 else 16 := by
  cases b <;> rfl

theorem headerNames_length (b : Bool) : (headerNames b).length = if b then 17 else 16 := by
  cases b <;> rfl

theorem columns_print (r : AnnotatedJunction) (b : Bool) (h : TabFreeRecord r b) :
    columns (AnnotatedJunction.print "" r b) = rowCells r b := by
  rw [print_eq, String.empty_append]
  refine columns_intercalate _ ?_ (tabFree_rowCells r b h)
  intro h0
  have := rowCells_length r b
  rw [h0] at this
  cases b <;> simp at this

/-- C6, as stated, fails: the record built from a junction whose name contains a tab is
written by `print` (flag off) as a line of 17 tab-separated columns, while the header line
has 16. -/
theorem print_columns_tabbed_name :
    (columns (AnnotatedJunction.print ""
      (AnnotatedJunction.ofJunction sampleBase (false, false, false) tabbedJunction)
      false)).length = 17 ∧
    (columns (AnnotatedJunction.print_header "" false)).length = 16 := by
  constructor <;> rfl

/-- C6, amended: for every record none of whose printed strings (chrom, name, score, strand,
splice_site, anchor, the gene and transcript identifiers and, with the flag on,
variant_info) contains a tab, and for either value of `variant_info_exists`, the line
written by `print` has as many tab-separated columns as the line written by `print_header`
with the same flag: 16 with the flag off, 17 with it on. -/
theorem print_columns_count (r : AnnotatedJunction) (b : Bool) (h : TabFreeRecord r b) :
    (columns (AnnotatedJunction.print "" r b)).length =
      (columns (AnnotatedJunction.print_header "" b)).length ∧
    (columns (AnnotatedJunction.print "" r b)).length = (if b then 17 else 16) ∧
    (columns (AnnotatedJunction.print_header "" b)).length = (if b then 17 else 16) := by
  rw [columns_print r b h, columns_print_header, rowCells_length, headerNames_length]
  exact ⟨rfl, rfl, rfl⟩

theorem print_columns_count_witness :
    TabFreeRecord sampleRecord true ∧
    (columns (AnnotatedJunction.print "" sampleRecord true)).length = 17 :=
  ⟨by decide, (print_columns_count sampleRecord true (by decide)).2.1⟩

/-- C7: the header written with `variant_info_exists` on is the header written with it off
with `"\tvariant_info"` inserted before the final newline, and for every record the row
written with the flag on is the row written with it off with a tab followed by the record's
`variant_info`, verbatim, inserted before the final newline. -/
theorem variant_info_column_appended (out : String) :
    (∃ body : String,
      AnnotatedJunction.print_header out false = body ++ "\n" ∧
      AnnotatedJunction.print_header out true = body ++ "\tvariant_info" ++ "\n") ∧
    ∀ r : AnnotatedJunction, ∃ body : String,
      AnnotatedJunction.print out r false = body ++ "\n" ∧
      AnnotatedJunction.print out r true = body ++ "\t" ++ r.variant_info ++ "\n" := by
  constructor
  · refine ⟨out ++ "\t".intercalate (headerNames false), print_header_eq out false, ?_⟩
    simp only [print_header_eq, headerNames, if_true, if_false,
      Bool.false_eq_true, List.append_nil, List.cons_append, List.nil_append,
      intercalate_cons_cons, intercalate_singleton, String.append_assoc]
    rfl
  · intro r
    refine ⟨out ++ "\t".intercalate (rowCells r false), print_eq out r false, ?_⟩
    simp only [print_eq, rowCells, if_true, if_false,
      Bool.false_eq_true, List.append_nil, List.cons_append, List.nil_append,
      intercalate_cons_cons, intercalate_singleton, String.append_assoc]

/-! ### Frame of `reset` -/

/-- C8: `reset` changes only the annotation state: after it chrom, start, end, name, score,
strand, fields and variant_info have exactly the values they had before the call. -/
theorem reset_frame (r : AnnotatedJunction) :
    r.reset.chrom = r.chrom ∧ r.reset.start = r.start ∧ r.reset.«end» = r.«end» ∧
    r.reset.name = r.name ∧ r.reset.score = r.score ∧ r.reset.strand = r.strand ∧
    r.reset.fields = r.fields ∧ r.reset.variant_info = r.variant_info :=
  ⟨rfl, rfl, rfl, rfl, rfl, rfl, rfl, rfl⟩

/-! ### `JunctionsAnnotator` constructors -/

/-- C9: each of the three `JunctionsAnnotator` constructors yields an annotator whose
`skip_single_exon_genes_` is true and whose `output_file_` is `"NA"`; the default and the
junctions-file constructors set `ref_` to `"NA"` (the reference-and-GTF constructor stores
the reference path and parser it is given). -/
theorem annotator_constructors {BedFile GtfParser Ofstream : Type} (bed0 : BedFile)
    (openBed : String → BedFile) (ofs0 : Ofstream) (gtf0 gp1 : GtfParser)
    (ref1 bedFile : String) :
    (JunctionsAnnotator.new bed0 ofs0 gtf0).skip_single_exon_genes_ = true ∧
    (JunctionsAnnotator.ofRefGtf bed0 ofs0 ref1 gp1).skip_single_exon_genes_ = true ∧
    (JunctionsAnnotator.ofBedFile openBed ofs0 gtf0 bedFile).skip_single_exon_genes_ = true ∧
    (JunctionsAnnotator.new bed0 ofs0 gtf0).ref_ = "NA" ∧
    (JunctionsAnnotator.ofBedFile openBed ofs0 gtf0 bedFile).ref_ = "NA" ∧
    (JunctionsAnnotator.new bed0 ofs0 gtf0).output_file_ = "NA" ∧
    (JunctionsAnnotator.ofRefGtf bed0 ofs0 ref1 gp1).output_file_ = "NA" ∧
    (JunctionsAnnotator.ofBedFile openBed ofs0 gtf0 bedFile).output_file_ = "NA" ∧
    (JunctionsAnnotator.ofRefGtf bed0 ofs0 ref1 gp1).ref_ = ref1 ∧
    (JunctionsAnnotator.ofRefGtf bed0 ofs0 ref1 gp1).gtf_ = gp1 ∧
    (JunctionsAnnotator.ofBedFile openBed ofs0 gtf0 bedFile).junctions_ = openBed bedFile :=
  ⟨rfl, rfl, rfl, rfl, rfl, rfl, rfl, rfl, rfl, rfl, rfl⟩

/-! ### Anchor classification -/

/-- C10: `annotate_anchor` sets the anchor by the rule table: `DA` when `known_donor` and
`known_acceptor` are both true, `D` when only `known_donor` is, `A` when only
`known_acceptor` is, and when both are false `NDA` if a transcript or gene overlap was
recorded and `N` otherwise; so the resulting anchor is one of `N`, `D`, `A`, `DA`, `NDA`,
and nothing but the anchor is changed. -/
theorem annotate_anchor_table (j : AnnotatedJunction) :
    (j.known_donor = true → j.known_acceptor = true → (annotate_anchor j).anchor = "DA") ∧
    (j.known_donor = true → j.known_acceptor = false → (annotate_anchor j).anchor = "D") ∧
    (j.known_donor = false → j.known_acceptor = true → (annotate_anchor j).anchor = "A") ∧
    (j.known_donor = false → j.known_acceptor = false →
      (j.transcripts_overlap.elems ≠ [] ∨ j.genes_overlap.elems ≠ []) →
      (annotate_anchor j).anchor = "NDA") ∧
    (j.known_donor = false → j.known_acceptor = false →
      j.transcripts_overlap.elems = [] → j.genes_overlap.elems = [] →
      (annotate_anchor j).anchor = "N") ∧
    (annotate_anchor j).anchor ∈ ["N", "D", "A", "DA", "NDA"] ∧
    annotate_anchor j = { j with anchor := (annotate_anchor j).anchor } := by
  have hsz : ∀ s : StdSet String, s.size ≠ 0 ↔ s.elems ≠ [] := fun s => by
    simp [StdSet.size]
  refine ⟨?_, ?_, ?_, ?_, ?_, ?_, ?_⟩
  · intro hd ha; simp [annotate_anchor, hd, ha]
  · intro hd ha; simp [annotate_anchor, hd, ha]
  · intro hd ha; simp [annotate_anchor, hd, ha]
  · intro hd ha ho
    rw [← hsz, ← hsz] at ho
    simp [annotate_anchor, hd, ha, ho]
  · intro hd ha ht hg
    simp [annotate_anchor, hd, ha, StdSet.size, ht, hg]
  · unfold annotate_anchor
    split_ifs <;> simp
  · unfold annotate_anchor
    split_ifs <;> rfl

theorem annotate_anchor_table_witness :
    sampleRecord.known_donor = true ∧ sampleRecord.known_acceptor = false ∧
    (annotate_anchor sampleRecord).anchor = "D" :=
  ⟨by decide, by decide, (annotate_anchor_table sampleRecord).2.1 (by decide) (by decide)⟩

/-! ### Exon matching: the known-flags -/

theorem collectSkipped_flags (donorSide acceptorSide : BED → Nat) (lo hi : Nat)
    (l : List BED) (i : Nat) (j : AnnotatedJunction) :
    (collectSkipped donorSide acceptorSide lo hi l i j).known_donor = j.known_donor ∧
    (collectSkipped donorSide acceptorSide lo hi l i j).known_acceptor = j.known_acceptor ∧
    (collectSkipped donorSide acceptorSide lo hi l i j).known_junction = j.known_junction := by
  induction l generalizing i j with
  | nil => exact ⟨rfl, rfl, rfl⟩
  | cons e rest ih =>
    simp only [collectSkipped]
    split_ifs
    · obtain ⟨h1, h2, h3⟩ := ih (i + 1) _
      exact ⟨h1, h2, h3⟩
    · exact ih (i + 1) j

theorem overlap_ps_sitesKnown (exons : List BED) (j : AnnotatedJunction)
    (h : SitesKnown j) : SitesKnown (overlap_ps exons j).2 := by
  unfold SitesKnown at *
  simp only [overlap_ps]
  cases findExon (fun e => e.«end» == j.start) exons 0 <;>
    cases findExon (fun e => e.start == j.«end») exons 0 <;>
    simp only [Option.isSome_none, Option.isSome_some, if_true, if_false,
      Bool.false_eq_true] <;>
    (try split_ifs) <;>
    (try simp only [collectSkipped_flags]) <;>
    simp_all

theorem overlap_ns_sitesKnown (exons : List BED) (j : AnnotatedJunction)
    (h : SitesKnown j) : SitesKnown (overlap_ns exons j).2 := by
  unfold SitesKnown at *
  simp only [overlap_ns]
  cases findExon (fun e => e.start == j.«end») exons 0 <;>
    cases findExon (fun e => e.«end» == j.start) exons 0 <;>
    simp only [Option.isSome_none, Option.isSome_some, if_true, if_false,
      Bool.false_eq_true] <;>
    (try split_ifs) <;>
    (try simp only [collectSkipped_flags]) <;>
    simp_all

theorem check_for_overlap_sitesKnown (skip : Bool) (t : Transcript) (j : AnnotatedJunction)
    (h : SitesKnown j) : SitesKnown (check_for_overlap skip t j) := by
  have key : ∀ res : Bool × AnnotatedJunction, SitesKnown res.2 →
      SitesKnown
        (if res.1 then
          { res.2 with
            transcripts_overlap := res.2.transcripts_overlap.insert t.id
            genes_overlap := res.2.genes_overlap.insert t.geneId }
        else res.2) := by
    intro res hres
    split_ifs
    · exact hres
    · exact hres
  unfold check_for_overlap
  split_ifs
  · exact h
  · exact key _ (overlap_ps_sitesKnown _ _ h)
  · exact key _ (overlap_ns_sitesKnown _ _ h)
  · exact key (false, j) h

theorem foldl_check_for_overlap_sitesKnown (skip : Bool) (ts : List Transcript)
    (j : AnnotatedJunction) (h : SitesKnown j) :
    SitesKnown (ts.foldl (fun r t => check_for_overlap skip t r) j) := by
  induction ts generalizing j with
  | nil => exact h
  | cons t rest ih => exact ih _ (check_for_overlap_sitesKnown skip t j h)

theorem annotate_anchor_flags (j : AnnotatedJunction) :
    (annotate_anchor j).known_donor = j.known_donor ∧
    (annotate_anchor j).known_acceptor = j.known_acceptor ∧
    (annotate_anchor j).known_junction = j.known_junction := by
  unfold annotate_anchor
  split_ifs <;> exact ⟨rfl, rfl, rfl⟩

theorem constructed_sitesKnown (base : BED) (g : Bool × Bool × Bool) (j1 : Junction) :
    SitesKnown (AnnotatedJunction.ofJunction base g j1) := by
  intro h
  exact absurd h (by simp [AnnotatedJunction.ofJunction, AnnotatedJunction.reset])

/-- C11: for every junction and every gene model (any list of transcripts, with the
single-exon option on or off), the record built from the junction and run through the
matching passes satisfies: `known_junction = true` implies `known_donor = true` and
`known_acceptor = true`. This holds after the `check_for_overlap` passes and after the
anchor classification that follows them, and each of `overlap_ps`, `overlap_ns` and
`check_for_overlap` keeps the implication when the record it is given satisfies it. -/
theorem known_junction_implies_known_sites (skip : Bool) (ts : List Transcript) (base : BED)
    (g : Bool × Bool × Bool) (j1 : Junction) :
    ((ts.foldl (fun r t => check_for_overlap skip t r)
        (AnnotatedJunction.ofJunction base g j1)).known_junction = true →
      (ts.foldl (fun r t => check_for_overlap skip t r)
        (AnnotatedJunction.ofJunction base g j1)).known_donor = true ∧
      (ts.foldl (fun r t => check_for_overlap skip t r)
        (AnnotatedJunction.ofJunction base g j1)).known_acceptor = true) ∧
    ((annotate_junction_with_gtf skip ts
        (AnnotatedJunction.ofJunction base g j1)).known_junction = true →
      (annotate_junction_with_gtf skip ts
        (AnnotatedJunction.ofJunction base g j1)).known_donor = true ∧
      (annotate_junction_with_gtf skip ts
        (AnnotatedJunction.ofJunction base g j1)).known_acceptor = true) ∧
    ∀ (r : AnnotatedJunction) (t : Transcript),
      (r.known_junction = true → r.known_donor = true ∧ r.known_acceptor = true) →
      ((overlap_ps t.exons r).2.known_junction = true →
        (overlap_ps t.exons r).2.known_donor = true ∧
        (overlap_ps t.exons r).2.known_acceptor = true) ∧
      ((overlap_ns t.exons r).2.known_junction = true →
        (overlap_ns t.exons r).2.known_donor = true ∧
        (overlap_ns t.exons r).2.known_acceptor = true) ∧
      ((check_for_overlap skip t r).known_junction = true →
        (check_for_overlap skip t r).known_donor = true ∧
        (check_for_overlap skip t r).known_acceptor = true) := by
  have hfold := foldl_check_for_overlap_sitesKnown skip ts _ (constructed_sitesKnown base g j1)
  refine ⟨hfold, ?_, fun r t hr => ⟨overlap_ps_sitesKnown _ _ hr, overlap_ns_sitesKnown _ _ hr,
    check_for_overlap_sitesKnown skip t r hr⟩⟩
  unfold annotate_junction_with_gtf
  obtain ⟨h1, h2, h3⟩ := annotate_anchor_flags
    (ts.foldl (fun r t => check_for_overlap skip t r) (AnnotatedJunction.ofJunction base g j1))
  rw [h1, h2, h3]
  exact hfold

theorem known_junction_implies_known_sites_witness :
    (annotate_junction_with_gtf true [skipTranscript]
      (AnnotatedJunction.ofJunction sampleBase (false, false, false)
        skipRawJunction)).known_junction = true ∧
    (annotate_junction_with_gtf true [skipTranscript]
      (AnnotatedJunction.ofJunction sampleBase (false, false, false)
        skipRawJunction)).known_donor = true ∧
    (annotate_junction_with_gtf true [skipTranscript]
      (AnnotatedJunction.ofJunction sampleBase (false, false, false)
        skipRawJunction)).known_acceptor = true :=
  ⟨by decide,
   (known_junction_implies_known_sites true [skipTranscript] sampleBase (false, false, false)
      skipRawJunction).2.1 (by decide)⟩

/-! ### Exon matching: skipped exons -/

theorem mem_insertList {α : Type} [LinearOrder α] (x z : α) (l : List α) :
    z ∈ StdSet.insertList x l ↔ z = x ∨ z ∈ l := by
  induction l with
  | nil => simp [StdSet.insertList]
  | cons y ys ih =>
    unfold StdSet.insertList
    by_cases h1 : x < y
    · rw [if_pos h1]; simp
    · rw [if_neg h1]
      by_cases h2 : y < x
      · rw [if_pos h2, List.mem_cons, ih, List.mem_cons]; tauto
      · rw [if_neg h2]
        have hxy : x = y := le_antisymm (not_lt.1 h2) (not_lt.1 h1)
        subst hxy
        simp

theorem mem_insert {α : Type} [LinearOrder α] (s : StdSet α) (x z : α) :
    z ∈ (s.insert x).elems ↔ z = x ∨ z ∈ s.elems :=
  mem_insertList x z s.elems

theorem findExon_spec (p : BED → Bool) (l : List BED) (i d : Nat)
    (h : findExon p l i = some d) :
    i ≤ d ∧ ∃ e, l[d - i]? = some e ∧ p e = true ∧
      ∀ k e', k < d - i → l[k]? = some e' → p e' = false := by
  induction l generalizing i with
  | nil => simp [findExon] at h
  | cons e rest ih =>
    unfold findExon at h
    by_cases hp : p e = true
    · rw [if_pos hp] at h
      cases h
      refine ⟨le_refl _, e, by simp, hp, fun k e' hk => ?_⟩
      omega
    · rw [if_neg hp] at h
      obtain ⟨hle, e₁, he₁, hp₁, hfirst⟩ := ih (i + 1) h
      have hd : d - i = (d - (i + 1)) + 1 := by omega
      refine ⟨by omega, e₁, ?_, hp₁, fun k e' hk hk' => ?_⟩
      · rw [hd, List.getElem?_cons_succ]; exact he₁
      · cases k with
        | zero =>
          simp only [List.getElem?_cons_zero, Option.some.injEq] at hk'
          subst hk'
          simpa using hp
        | succ k =>
          rw [List.getElem?_cons_succ] at hk'
          exact hfirst k e' (by omega) hk'

theorem collectSkipped_exons_mem (donorSide acceptorSide : BED → Nat) (lo hi : Nat)
    (l : List BED) (i : Nat) (j : AnnotatedJunction) (x : String) :
    x ∈ (collectSkipped donorSide acceptorSide lo hi l i j).exons_skipped.elems ↔
      x ∈ j.exons_skipped.elems ∨
      ∃ k e, l[k]? = some e ∧ lo < i + k ∧ i + k < hi ∧ e.name = x := by
  induction l generalizing i j with
  | nil => simp [collectSkipped]
  | cons e rest ih =>
    simp only [collectSkipped]
    rw [ih]
    constructor
    · rintro (h | ⟨k, e', hk, h1, h2, h3⟩)
      · split_ifs at h with hc
        · rcases (mem_insert _ _ _).1 h with rfl | h
          · exact Or.inr ⟨0, e, by simp, by omega, by omega, rfl⟩
          · exact Or.inl h
        · exact Or.inl h
      · exact Or.inr ⟨k + 1, e', by simpa using hk, by omega, by omega, h3⟩
    · rintro (h | ⟨k, e', hk, h1, h2, h3⟩)
      · left
        split_ifs
        · exact (mem_insert _ _ _).2 (Or.inr h)
        · exact h
      · cases k with
        | zero =>
          simp only [List.getElem?_cons_zero, Option.some.injEq] at hk
          subst hk
          left
          rw [if_pos ⟨by omega, by omega⟩]
          exact (mem_insert _ _ _).2 (Or.inl h3.symm)
        | succ k =>
          rw [List.getElem?_cons_succ] at hk
          exact Or.inr ⟨k, e', hk, by omega, by omega, h3⟩

theorem overlap_ps_exons_of_found (exons : List BED) (j : AnnotatedJunction) (d a : Nat)
    (hd : findExon (fun e => e.«end» == j.start) exons 0 = some d)
    (ha : findExon (fun e => e.start == j.«end») exons 0 = some a) (x : String) :
    x ∈ (overlap_ps exons j).2.exons_skipped.elems ↔
      x ∈ j.exons_skipped.elems ∨
      ∃ k e, exons[k]? = some e ∧ d < k ∧ k < a ∧ e.name = x := by
  simp only [overlap_ps, hd, ha, Option.isSome_some, if_true]
  by_cases hlt : d < a
  · rw [if_pos hlt, collectSkipped_exons_mem]
    simp only [Nat.zero_add]
  · rw [if_neg hlt]
    constructor
    · exact fun h => Or.inl h
    · rintro (h | ⟨k, e, _, h1, h2, _⟩)
      · exact h
      · omega

theorem overlap_ps_exons_of_not_found (exons : List BED) (j : AnnotatedJunction)
    (h : findExon (fun e => e.«end» == j.start) exons 0 = none ∨
      findExon (fun e => e.start == j.«end») exons 0 = none) :
    (overlap_ps exons j).2.exons_skipped = j.exons_skipped := by
  simp only [overlap_ps]
  rcases h with h | h
  · rw [h]
    cases findExon (fun e => e.start == j.«end») exons 0 <;> rfl
  · rw [h]
    cases findExon (fun e => e.«end» == j.start) exons 0 <;> rfl

/-- C12: matching the junction `[200,350)` on the `+` strand against the transcript with
exons `[100,200)`, `[250,300)`, `[350,400)` gives `known_junction = true` and
`exons_skipped` holding exactly the exon at `[250,300)` (named `exon2`), through
`overlap_ps` and through `check_for_overlap`. In general, when `overlap_ps` finds the donor
exon at index `d` (its end is the junction's start) and the acceptor exon at index `a` (its
start is the junction's end), an identifier is in `exons_skipped` afterwards exactly when it
was there before or names an exon at an index strictly between `d` and `a`; when one of the
two is not found, `exons_skipped` is unchanged. -/
theorem overlap_ps_exons_skipped (exons : List BED) (j : AnnotatedJunction) :
    (overlap_ps skipExons skipJunction).2.known_junction = true ∧
    (overlap_ps skipExons skipJunction).2.exons_skipped.elems = ["exon2"] ∧
    (check_for_overlap true skipTranscript skipJunction).known_junction = true ∧
    (check_for_overlap true skipTranscript skipJunction).exons_skipped.elems = ["exon2"] ∧
    (∀ d a : Nat,
      findExon (fun e => e.«end» == j.start) exons 0 = some d →
      findExon (fun e => e.start == j.«end») exons 0 = some a →
      (∃ ed ea, exons[d]? = some ed ∧ ed.«end» = j.start ∧
        exons[a]? = some ea ∧ ea.start = j.«end») ∧
      ∀ x : String, x ∈ (overlap_ps exons j).2.exons_skipped.elems ↔
        x ∈ j.exons_skipped.elems ∨
        ∃ k e, exons[k]? = some e ∧ d < k ∧ k < a ∧ e.name = x) ∧
    ((findExon (fun e => e.«end» == j.start) exons 0 = none ∨
        findExon (fun e => e.start == j.«end») exons 0 = none) →
      (overlap_ps exons j).2.exons_skipped = j.exons_skipped) := by
  refine ⟨by decide, by decide, by decide, by decide, fun d a hd ha => ⟨?_, ?_⟩,
    overlap_ps_exons_of_not_found exons j⟩
  · obtain ⟨_, ed, hed, hpd, _⟩ := findExon_spec _ _ _ _ hd
    obtain ⟨_, ea, hea, hpa, _⟩ := findExon_spec _ _ _ _ ha
    exact ⟨ed, ea, by simpa using hed, by simpa using hpd, by simpa using hea,
      by simpa using hpa⟩
  · exact overlap_ps_exons_of_found exons j d a hd ha

theorem overlap_ps_exons_skipped_witness :
    findExon (fun e => e.«end» == skipJunction.start) skipExons 0 = some 0 ∧
    findExon (fun e => e.start == skipJunction.«end») skipExons 0 = some 2 ∧
    ("exon2" ∈ (overlap_ps skipExons skipJunction).2.exons_skipped.elems ↔
      "exon2" ∈ skipJunction.exons_skipped.elems ∨
      ∃ k e, skipExons[k]? = some e ∧ 0 < k ∧ k < 2 ∧ e.name = "exon2") :=
  ⟨by decide, by decide,
   ((overlap_ps_exons_skipped skipExons skipJunction).2.2.2.2.1 0 2
      (by decide) (by decide)).2 "exon2"⟩

/-! ### The interval invariant under construction -/

/-- C13, as stated, fails: the junction `chr1:[100, 4294967295)` has `start ≤ end`, but in
the record constructed from it `end` has wrapped to `0`, below `start = 100`. -/
theorem ofJunction_wraps_end :
    wrapJunction.start ≤ wrapJunction.«end» ∧
    (AnnotatedJunction.ofJunction sampleBase (false, false, false) wrapJunction).«end» = 0 ∧
    ¬ ((AnnotatedJunction.ofJunction sampleBase (false, false, false) wrapJunction).start ≤
       (AnnotatedJunction.ofJunction sampleBase (false, false, false) wrapJunction).«end») := by
  decide

/-- C13, amended: for every `Junction` `j1` with `j1.start ≤ j1.end` whose end is below the
largest value of the coordinate type (`j1.end + 1 < 2 ^ 32`), the record constructed from it
has `start < end`, hence `start ≤ end`, where `end` is `j1.end + 1` computed in the unsigned
32-bit coordinate type. -/
theorem ofJunction_start_lt_end (base : BED) (g : Bool × Bool × Bool) (j1 : Junction)
    (hle : j1.start ≤ j1.«end») (hfit : j1.«end» + 1 < CHRPOS_MOD) :
    (AnnotatedJunction.ofJunction base g j1).start <
      (AnnotatedJunction.ofJunction base g j1).«end» ∧
    (AnnotatedJunction.ofJunction base g j1).start ≤
      (AnnotatedJunction.ofJunction base g j1).«end» := by
  have hend : (AnnotatedJunction.ofJunction base g j1).«end» = j1.«end» + 1 :=
    Nat.mod_eq_of_lt hfit
  have hstart : (AnnotatedJunction.ofJunction base g j1).start = j1.start := rfl
  rw [hend, hstart]
  omega

theorem ofJunction_start_lt_end_witness :
    sampleJunction.start ≤ sampleJunction.«end» ∧
    sampleJunction.«end» + 1 < CHRPOS_MOD ∧
    (AnnotatedJunction.ofJunction sampleBase (true, true, false) sampleJunction).start <
      (AnnotatedJunction.ofJunction sampleBase (true, true, false) sampleJunction).«end» :=
  ⟨by decide, by decide,
   (ofJunction_start_lt_end sampleBase (true, true, false) sampleJunction
      (by decide) (by decide)).1⟩

/-! ### `operator<` as a strict weak ordering -/

theorem sortKey_eq_of_incomparable (a b : AnnotatedJunction)
    (h1 : operator_lt a b = false) (h2 : operator_lt b a = false) : sortKey a = sortKey b :=
  le_antisymm (not_lt.1 ((operator_lt_eq_false_iff b a).1 h2))
    (not_lt.1 ((operator_lt_eq_false_iff a b).1 h1))

/-- C14: `operator<` on `AnnotatedJunction` is a strict weak ordering: it is irreflexive and
asymmetric, it is transitive, and incomparability (neither record less than the other) is
transitive. -/
theorem operator_lt_strict_weak (a b c : AnnotatedJunction) :
    operator_lt a a = false ∧
    (operator_lt a b = true → operator_lt b a = false) ∧
    (operator_lt a b = true → operator_lt b c = true → operator_lt a c = true) ∧
    (operator_lt a b = false ∧ operator_lt b a = false →
      operator_lt b c = false ∧ operator_lt c b = false →
      operator_lt a c = false ∧ operator_lt c a = false) := by
  refine ⟨?_, ?_, ?_, ?_⟩
  · exact (operator_lt_eq_false_iff a a).2 (lt_irrefl _)
  · intro h
    exact (operator_lt_eq_false_iff b a).2 (lt_asymm ((operator_lt_iff_sortKey a b).1 h))
  · intro h1 h2
    exact (operator_lt_iff_sortKey a c).2
      (lt_trans ((operator_lt_iff_sortKey a b).1 h1) ((operator_lt_iff_sortKey b c).1 h2))
  · rintro ⟨h1, h2⟩ ⟨h3, h4⟩
    have hac : sortKey a = sortKey c :=
      (sortKey_eq_of_incomparable a b h1 h2).trans (sortKey_eq_of_incomparable b c h3 h4)
    exact ⟨(operator_lt_eq_false_iff a c).2 (hac ▸ lt_irrefl _),
      (operator_lt_eq_false_iff c a).2 (hac ▸ lt_irrefl _)⟩

theorem operator_lt_strict_weak_witness :
    operator_lt sampleEarlier sampleLater = true ∧
    operator_lt sampleLater sampleLast = true ∧
    operator_lt sampleEarlier sampleLast = true :=
  ⟨(operator_lt_iff _ _).2 (Or.inr (Or.inl ⟨rfl, by decide⟩)),
   (operator_lt_iff _ _).2 (Or.inr (Or.inr ⟨rfl, rfl, by decide⟩)),
   (operator_lt_strict_weak sampleEarlier sampleLater sampleLast).2.2.1
     ((operator_lt_iff _ _).2 (Or.inr (Or.inl ⟨rfl, by decide⟩)))
     ((operator_lt_iff _ _).2 (Or.inr (Or.inr ⟨rfl, rfl, by decide⟩)))⟩

/-! ### The genes and transcripts columns -/

theorem splitAtCommas_intercalate (ids : List String) (hne : ids ≠ [])
    (hfree : ∀ x ∈ ids, CommaFree x) : splitAtCommas (",".intercalate ids) = ids := by
  unfold splitAtCommas
  have hsep : (",".intercalate ids).data = List.intercalate [','] (ids.map String.data) :=
    data_intercalate "," ids
  rw [hsep, List.splitOn_intercalate]
  · rw [List.map_map]
    conv_rhs => rw [← List.map_id ids]
    apply List.map_congr_left
    intro c _
    rfl
  · intro l hl
    obtain ⟨c, hc, rfl⟩ := List.mem_map.1 hl
    exact hfree c hc
  · simpa using hne

theorem pairwise_lt_nodup {α : Type} [LinearOrder α] (l : List α)
    (h : l.Pairwise (· < ·)) : l.Nodup :=
  h.imp (fun hab => ne_of_lt hab)

/-- C15: in the row written by `print`, the fifteenth and sixteenth values are the genes
and the transcripts column. Each is written by the same block, which for an empty set writes
`NA` and otherwise the set's identifiers joined by single commas, nothing before the first
and nothing after the last; the identifiers come in strictly ascending order, hence without
repetition; and when no identifier contains a comma, splitting the column at commas gives
back exactly the set's elements. For a record without tabs in its strings these two values
are the fifteenth and sixteenth tab-separated columns of the line. -/
theorem overlap_columns_format (out : String) (r : AnnotatedJunction) (b : Bool)
    (s : StdSet String) :
    AnnotatedJunction.print out r b = out ++ "\t".intercalate (rowCells r b) ++ "\n" ∧
    (rowCells r b)[14]? = some (overlapColumn r.genes_overlap) ∧
    (rowCells r b)[15]? = some (overlapColumn r.transcripts_overlap) ∧
    (TabFreeRecord r b →
      (columns (AnnotatedJunction.print "" r b))[14]? = some (overlapColumn r.genes_overlap) ∧
      (columns (AnnotatedJunction.print "" r b))[15]? =
        some (overlapColumn r.transcripts_overlap)) ∧
    AnnotatedJunction.printOverlap out s = out ++ "\t" ++ overlapColumn s ∧
    (s.elems = [] → AnnotatedJunction.printOverlap out s = out ++ "\t" ++ "NA") ∧
    (s.elems ≠ [] →
      AnnotatedJunction.printOverlap out s = out ++ "\t" ++ ",".intercalate s.elems ∧
      overlapColumn s = ",".intercalate s.elems ∧
      s.elems.Pairwise (· < ·) ∧ s.elems.Nodup ∧
      ((∀ x ∈ s.elems, CommaFree x) → splitAtCommas (overlapColumn s) = s.elems)) := by
  have hg : (rowCells r b)[14]? = some (overlapColumn r.genes_overlap) := by
    cases b <;> rfl
  have ht : (rowCells r b)[15]? = some (overlapColumn r.transcripts_overlap) := by
    cases b <;> rfl
  refine ⟨print_eq out r b, hg, ht, fun h => ?_, printOverlap_eq out s, fun h => ?_,
    fun h => ?_⟩
  · rw [columns_print r b h]
    exact ⟨hg, ht⟩
  · rw [printOverlap_eq, overlapColumn, if_pos h]
  · have hcol : overlapColumn s = ",".intercalate s.elems := by
      rw [overlapColumn, if_neg h]
    refine ⟨by rw [printOverlap_eq, hcol], hcol, s.sorted, pairwise_lt_nodup _ s.sorted,
      fun hfree => ?_⟩
    rw [hcol]
    exact splitAtCommas_intercalate s.elems h hfree

theorem overlap_columns_format_witness :
    sampleGenes.elems ≠ [] ∧ (∀ x ∈ sampleGenes.elems, CommaFree x) ∧
    overlapColumn sampleGenes = "BRCA1,TP53" ∧
    splitAtCommas (overlapColumn sampleGenes) = sampleGenes.elems :=
  ⟨by decide, by decide, by decide,
   ((overlap_columns_format "" sampleRecord false sampleGenes).2.2.2.2.2.2
      (by decide)).2.2.2.2 (by decide)⟩

/-! ### The `end + 1` conversion from input to output -/

theorem rowCells_ofJunction (base : BED) (g : Bool × Bool × Bool) (j1 : Junction)
    (b : Bool) :
    rowCells (AnnotatedJunction.ofJunction base g j1) b =
      [j1.chrom, toString j1.start, toString ((j1.«end» + 1) % CHRPOS_MOD), j1.name,
        j1.score, j1.strand, "", "0", "0", "0", "N", "0", "0", "0", "NA", "NA"] ++
      (if b then [""] else []) := by
  cases b <;>
    simp [rowCells, AnnotatedJunction.ofJunction, AnnotatedJunction.reset,
      AnnotatedJunction.memberInit, AnnotatedJunction.putNat, AnnotatedJunction.putBool,
      StdSet.size, StdSet.clear, StdSet.empty, overlapColumn] <;>
    rfl

theorem rowCells_start_end (r : AnnotatedJunction) (b : Bool) :
    (rowCells r b)[1]? = some (toString r.start) ∧
    (rowCells r b)[2]? = some (toString r.«end») := by
  cases b <;> simp [rowCells, AnnotatedJunction.putNat]

/-- C16, as stated, fails. For the junction `chr1:[100, 4294967295)` the printed row has
`0` in the end column, not `j.end + 1 = 4294967296`. And for a junction whose chromosome name
contains a tab (`"chr1\tx"`, start 200) the second tab-separated column of the row is `x`,
not `j.start`. -/
theorem print_end_column_wrapped :
    AnnotatedJunction.print ""
      (AnnotatedJunction.ofJunction sampleBase (false, false, false) wrapJunction) false =
      "chr1\t100\t0\tJUNC00000003\t1\t+\t\t0\t0\t0\tN\t0\t0\t0\tNA\tNA\n" ∧
    (columns (AnnotatedJunction.print ""
      (AnnotatedJunction.ofJunction sampleBase (false, false, false) wrapJunction)
      false))[2]? = some "0" ∧
    toString (wrapJunction.«end» + 1) = "4294967296" ∧
    (columns (AnnotatedJunction.print ""
      (AnnotatedJunction.ofJunction sampleBase (false, false, false) tabbedChromJunction)
      false))[1]? = some "x" ∧
    toString tabbedChromJunction.start = "200" := by
  refine ⟨rfl, rfl, rfl, rfl, rfl⟩

/-- C16, amended: for every `Junction` `j1`, the row printed for the record constructed from
it is the values `j1.chrom`, `j1.start`, `(j1.end + 1) mod 2 ^ 32`, name, score, strand and
the values of a fresh record, joined by tabs: the conversion is applied once, in the
constructor. When `j1.end` is below the largest value of the coordinate type
(`j1.end + 1 < 2 ^ 32`) the third value is `j1.end + 1`, and when moreover none of the
record's printed strings contains a tab, the start column of the line holds `j1.start` and
its end column `j1.end + 1`. `print` writes the record's own `start` and `end` as second and
third value, without adjusting them, and `reset` leaves both unchanged. -/
theorem end_adjusted_once (out : String) (base : BED) (g : Bool × Bool × Bool)
    (j1 : Junction) (b : Bool) :
    AnnotatedJunction.print out (AnnotatedJunction.ofJunction base g j1) b =
      out ++ "\t".intercalate
        ([j1.chrom, toString j1.start, toString ((j1.«end» + 1) % CHRPOS_MOD), j1.name,
          j1.score, j1.strand, "", "0", "0", "0", "N", "0", "0", "0", "NA", "NA"] ++
         (if b then [""] else [])) ++ "\n" ∧
    (j1.«end» + 1 < CHRPOS_MOD →
      toString ((j1.«end» + 1) % CHRPOS_MOD) = toString (j1.«end» + 1)) ∧
    (TabFreeRecord (AnnotatedJunction.ofJunction base g j1) b →
      (columns (AnnotatedJunction.print "" (AnnotatedJunction.ofJunction base g j1) b))[1]? =
        some (toString j1.start) ∧
      (columns (AnnotatedJunction.print "" (AnnotatedJunction.ofJunction base g j1) b))[2]? =
        some (toString ((j1.«end» + 1) % CHRPOS_MOD))) ∧
    (j1.«end» + 1 < CHRPOS_MOD →
      TabFreeRecord (AnnotatedJunction.ofJunction base g j1) b →
      (columns (AnnotatedJunction.print "" (AnnotatedJunction.ofJunction base g j1) b))[1]? =
        some (toString j1.start) ∧
      (columns (AnnotatedJunction.print "" (AnnotatedJunction.ofJunction base g j1) b))[2]? =
        some (toString (j1.«end» + 1))) ∧
    (∀ r : AnnotatedJunction,
      AnnotatedJunction.print out r b = out ++ "\t".intercalate (rowCells r b) ++ "\n" ∧
      (rowCells r b)[1]? = some (toString r.start) ∧
      (rowCells r b)[2]? = some (toString r.«end») ∧
      r.reset.start = r.start ∧ r.reset.«end» = r.«end») := by
  have hcols : TabFreeRecord (AnnotatedJunction.ofJunction base g j1) b →
      (columns (AnnotatedJunction.print "" (AnnotatedJunction.ofJunction base g j1) b))[1]? =
        some (toString j1.start) ∧
      (columns (AnnotatedJunction.print "" (AnnotatedJunction.ofJunction base g j1) b))[2]? =
        some (toString ((j1.«end» + 1) % CHRPOS_MOD)) := by
    intro h
    rw [columns_print _ b h]
    exact rowCells_start_end _ b
  refine ⟨?_, fun h => by rw [Nat.mod_eq_of_lt h], hcols, fun hfit h => ?_, fun r => ?_⟩
  · rw [print_eq, rowCells_ofJunction]
  · have h2 := hcols h
    rw [Nat.mod_eq_of_lt hfit] at h2
    exact h2
  · exact ⟨print_eq out r b, (rowCells_start_end r b).1, (rowCells_start_end r b).2,
      rfl, rfl⟩

theorem end_adjusted_once_witness :
    sampleJunction.«end» + 1 < CHRPOS_MOD ∧
    TabFreeRecord
      (AnnotatedJunction.ofJunction sampleBase (false, false, false) sampleJunction) false ∧
    (columns (AnnotatedJunction.print ""
      (AnnotatedJunction.ofJunction sampleBase (false, false, false) sampleJunction)
      false))[1]? = some (toString sampleJunction.start) ∧
    (columns (AnnotatedJunction.print ""
      (AnnotatedJunction.ofJunction sampleBase (false, false, false) sampleJunction)
      false))[2]? = some (toString (sampleJunction.«end» + 1)) :=
  ⟨by decide, by decide,
   (end_adjusted_once "" sampleBase (false, false, false) sampleJunction false).2.2.2.1
      (by decide) (by decide)⟩

/-! ### Construction and the sort order -/

theorem sortKey_ofJunction (base : BED) (g : Bool × Bool × Bool) (j1 : Junction) :
    sortKey (AnnotatedJunction.ofJunction base g j1) =
      toLex (j1.chrom, toLex (j1.start, (j1.«end» + 1) % CHRPOS_MOD)) := rfl

/-- C17, as stated, fails: `chr1:[100, 4294967295)` is not below `chr1:[100, 105)` in the
order of `(chrom, start, end)`, but the record built from the first (its `end` wrapped to
`0`) is less than the record built from the second (`end = 106`) under `operator<`. -/
theorem ofJunction_order_reversed :
    operator_lt
      (AnnotatedJunction.ofJunction sampleBase (false, false, false) wrapJunction)
      (AnnotatedJunction.ofJunction sampleBase (false, false, false) lowJunction) = true ∧
    ¬ (junctionKey wrapJunction < junctionKey lowJunction) := by
  constructor
  · exact (operator_lt_iff _ _).2 (Or.inr (Or.inr ⟨rfl, rfl, by decide⟩))
  · simp [junctionKey, wrapJunction, lowJunction, Prod.Lex.lt_iff]

/-- C17, amended: for every two `Junction`s whose ends are below the largest value of the
coordinate type (`end + 1 < 2 ^ 32`), the record built from the first is less than the
record built from the second under `operator<` if and only if `(chrom, start, end)` of the
first is lexicographically less than that of the second; so sorting the annotated records
gives the same order as sorting the input junctions. -/
theorem ofJunction_preserves_order (base₁ base₂ : BED) (g₁ g₂ : Bool × Bool × Bool)
    (j1 j2 : Junction) (h1 : j1.«end» + 1 < CHRPOS_MOD) (h2 : j2.«end» + 1 < CHRPOS_MOD) :
    operator_lt (AnnotatedJunction.ofJunction base₁ g₁ j1)
        (AnnotatedJunction.ofJunction base₂ g₂ j2) = true ↔
      junctionKey j1 < junctionKey j2 := by
  rw [operator_lt_iff_sortKey, sortKey_ofJunction, sortKey_ofJunction,
    Nat.mod_eq_of_lt h1, Nat.mod_eq_of_lt h2, junctionKey, junctionKey]
  simp only [Prod.Lex.lt_iff, ofLex_toLex, Nat.add_lt_add_iff_right]

theorem ofJunction_preserves_order_witness :
    lowJunction.«end» + 1 < CHRPOS_MOD ∧ sampleJunction.«end» + 1 < CHRPOS_MOD ∧
    (operator_lt
        (AnnotatedJunction.ofJunction sampleBase (false, false, false) lowJunction)
        (AnnotatedJunction.ofJunction sampleBase (true, true, true) sampleJunction) = true ↔
      junctionKey lowJunction < junctionKey sampleJunction) :=
  ⟨by decide, by decide,
   ofJunction_preserves_order sampleBase sampleBase (false, false, false) (true, true, true)
     lowJunction sampleJunction (by decide) (by decide)⟩

/-! ### `reset` forgets the annotation state -/

theorem reset_determined (a b : AnnotatedJunction) (h : SameInterval a b) :
    a.reset = b.reset := by
  obtain ⟨⟨c₁, s₁, e₁, n₁, sc₁, st₁, f₁⟩, _, _, _, _, _, _, _, _, _, _, _, v₁⟩ := a
  obtain ⟨⟨c₂, s₂, e₂, n₂, sc₂, st₂, f₂⟩, _, _, _, _, _, _, _, _, _, _, _, v₂⟩ := b
  obtain ⟨h1, h2, h3, h4, h5, h6, h7, h8⟩ := h
  simp only at h1 h2 h3 h4 h5 h6 h7 h8
  subst h1 h2 h3 h4 h5 h6 h7 h8
  rfl

/-- C18: `reset` is idempotent and erases all prior annotation state: resetting twice gives
the same record as resetting once, and two records that agree on chrom, start, end, name,
score, strand, fields and variant_info are equal after `reset`, whatever their sets, flags,
anchor, splice_site and annotation were before. -/
theorem reset_idempotent_erases (r a b : AnnotatedJunction) :
    r.reset.reset = r.reset ∧
    (a.chrom = b.chrom ∧ a.start = b.start ∧ a.«end» = b.«end» ∧ a.name = b.name ∧
      a.score = b.score ∧ a.strand = b.strand ∧ a.fields = b.fields ∧
      a.variant_info = b.variant_info → a.reset = b.reset) :=
  ⟨rfl, reset_determined a b⟩

theorem reset_idempotent_erases_witness :
    SameInterval sampleRecord sampleRecordOther ∧ sampleRecord ≠ sampleRecordOther ∧
    sampleRecord.reset = sampleRecordOther.reset :=
  ⟨by decide, by decide,
   (reset_idempotent_erases sampleRecord sampleRecord sampleRecordOther).2 (by decide)⟩

end Regtools
